import Mathlib

/-!
Verification of the concurrent media-track extraction and fallback
orchestration engine (audio_toolkit.py).

The embedding models the two batch entry points
`extract_all_audio_streams_best_effort` and `split_channels_best_effort`
as pure functions over an explicit environment:

* the Probe Service result is a list of `AudioStream` records (the fields
  of the ffprobe JSON the code reads: `codec_name`, `channels`);
* the filesystem existence check `os.path.exists` is a function
  `fs : String → Bool`;
* the Transcode Engine (`subprocess.run(cmd, check=True)`) is a function
  from the literal command list to `Except CalledProcessError Unit`;
* `os.makedirs` is an `Except String Unit` (error carries the message);
* thread-pool completion order (`concurrent.futures.as_completed`) is an
  explicit `order : List Nat`, constrained in theorems to be a
  permutation of the task indices.

Each worker result additionally records the trace of engine invocations
it performed (`calls`), so "the engine is never invoked" is a provable
statement.  `base` stands for
`os.path.splitext(os.path.basename(input_path))[0]` and `os.path.join`
is modelled as interposing a `/`; the claims do not depend on the edge
cases of either.
-/

/-- One entry of the ffprobe stream list: the two JSON fields the code
reads.  `channels` is an `Int` option: the field may be absent, and the
code funnels it through `int(s.get('channels', 0) or 0)`. -/
structure AudioStream where
  codec_name : Option String
  channels : Option Int
deriving DecidableEq, Repr

/-- `s.get('codec_name', 'unknown')`. -/
def codecOf (s : AudioStream) : String :=
  s.codec_name.getD "unknown"

/-- `int(s.get('channels', 0) or 0)`: a missing field gives 0, and
Python `x or 0` maps 0 to 0 and keeps any other integer. -/
def channelsOf (s : AudioStream) : Int :=
  s.channels.getD 0

/-- `subprocess.CalledProcessError` as the worker sees it: the decoded
stderr of the failed engine run, already split into lines (`none` models
an absent/falsy stderr). -/
structure CalledProcessError where
  stderr : Option (List String)
deriving DecidableEq, Repr

/-- The external collaborators of one batch run. -/
structure Env where
  /-- `os.path.exists`. -/
  fs : String → Bool
  /-- `subprocess.run(cmd, check=True)` on the Transcode Engine. -/
  engine : List String → Except CalledProcessError Unit
  /-- `os.makedirs(output_dir, exist_ok=True)`. -/
  mkdir : Except String Unit

/-- `os.path.basename`, POSIX: the component after the last `/`. -/
def basename (p : String) : String :=
  ⟨(p.data.reverse.takeWhile (fun c => c ≠ '/')).reverse⟩

/-- Python `str.strip()`: remove leading and trailing whitespace. -/
def pyStrip (s : String) : String :=
  ⟨((s.data.dropWhile Char.isWhitespace).reverse.dropWhile Char.isWhitespace).reverse⟩

/-- `_last_stderr_line` (audio_toolkit.py lines 9-18): walk the stderr
lines in reverse and return the first one whose strip is non-empty,
stripped; empty string otherwise.  Total by construction (the Python
`try/except` can never be hit by a non-raising model). -/
def _last_stderr_line (e : CalledProcessError) : String :=
  match e.stderr with
  | none => ""
  | some lines =>
    match lines.reverse.find? (fun l => !(pyStrip l == "")) with
    | some l => pyStrip l
    | none => ""

/-- `codec_to_extension` (lines 150-165). -/
def codec_to_extension : String → String
  | "aac" => "m4a"
  | "alac" => "m4a"
  | "flac" => "flac"
  | "mp3" => "mp3"
  | "opus" => "opus"
  | "vorbis" => "ogg"
  | "pcm_s16le" => "wav"
  | "pcm_s24le" => "wav"
  | "pcm_s32le" => "wav"
  | "ac3" => "ac3"
  | "eac3" => "eac3"
  | _ => "m4a"

/-- The `enc_map` of the re-encode fallback in
`extract_all_audio_streams_best_effort` (lines 225-231): codec →
(encoder, output extension), default `('aac', 'm4a')`. -/
def enc_map : String → String × String
  | "aac" => ("aac", "m4a")
  | "mp3" => ("libmp3lame", "mp3")
  | "flac" => ("flac", "flac")
  | "opus" => ("libopus", "opus")
  | _ => ("aac", "m4a")

/-- The `pcm_codecs` set of `split_channels_best_effort` (lines 360-363). -/
def pcm_codecs : List String :=
  ["pcm_s8", "pcm_u8", "pcm_s16le", "pcm_s16be", "pcm_s24le", "pcm_s24be",
   "pcm_s32le", "pcm_s32be", "pcm_f32le", "pcm_f32be", "pcm_f64le", "pcm_f64be"]

/-- Result of one task worker: the created path (if any), the log
message, and the trace of Transcode Engine command lines issued. -/
structure WRes where
  path : Option String
  msg : String
  calls : List (List String)
deriving DecidableEq, Repr

/-- Aggregate result of one batch call: the `created` list, the `msgs`
list (both in completion order, as the code appends them), and the
concatenated engine-invocation trace. -/
structure BatchRes where
  created : List String
  msgs : List String
  calls : List (List String)
deriving DecidableEq, Repr

/-! ## extract_all_audio_streams_best_effort (lines 199-270) -/

/-- The copy output path `out_copy` of stream worker `idx` (line 208):
`os.path.join(output_dir, f"{base}.a{idx}.{ext}")`. -/
def streamCopyPath (outputDir base : String) (idx : Nat) (codec : String) : String :=
  outputDir ++ "/" ++ base ++ ".a" ++ Nat.repr idx ++ "." ++ codec_to_extension codec

/-- The re-encode output path `out_enc` (line 232), using the `enc_map`
extension. -/
def streamEncPath (outputDir base : String) (idx : Nat) (codec : String) : String :=
  outputDir ++ "/" ++ base ++ ".a" ++ Nat.repr idx ++ "." ++ (enc_map codec).2

/-- The primary copy command of the stream worker (lines 212-218). -/
def streamCopyCmd (inputPath outputDir base : String) (overwrite preserveMetadata : Bool)
    (idx : Nat) (codec : String) : List String :=
  ["ffmpeg"] ++ (if overwrite then ["-y"] else [])
    ++ ["-i", inputPath, "-map", "0:a:" ++ Nat.repr idx, "-c:a", "copy"]
    ++ (if preserveMetadata then ["-map_metadata", "0"] else [])
    ++ [streamCopyPath outputDir base idx codec]

/-- The re-encode fallback command of the stream worker (lines 233-241). -/
def streamEncCmd (inputPath outputDir base : String) (overwrite preserveMetadata : Bool)
    (idx : Nat) (codec : String) : List String :=
  ["ffmpeg"] ++ (if overwrite then ["-y"] else [])
    ++ ["-i", inputPath, "-map", "0:a:" ++ Nat.repr idx, "-c:a", (enc_map codec).1]
    ++ (if (enc_map codec).1 ∈ ["aac", "libmp3lame", "libopus"] then ["-b:a", "192k"] else [])
    ++ (if preserveMetadata then ["-map_metadata", "0"] else [])
    ++ [streamEncPath outputDir base idx codec]

/-- Failure-message tail: `(' — ' + tail) if tail else ''`. -/
def tailPart (tail : String) : String :=
  if tail == "" then "" else " — " ++ tail

/-- The per-stream worker of `extract_all_audio_streams_best_effort`
(lines 206-248): existence gate, copy attempt, re-encode fallback,
terminal failure. -/
def streamWorker (inputPath outputDir base : String) (overwrite preserveMetadata : Bool)
    (idx : Nat) (codec : String) (env : Env) : WRes :=
  let out_copy := streamCopyPath outputDir base idx codec
  if env.fs out_copy && !overwrite then
    ⟨none, "  ⏭️ Skipped stream a:" ++ Nat.repr idx ++ " (exists)", []⟩
  else
    let cmd := streamCopyCmd inputPath outputDir base overwrite preserveMetadata idx codec
    match env.engine cmd with
    | .ok _ =>
      ⟨some out_copy,
       "  ✅ Extracted stream a:" ++ Nat.repr idx ++ " via copy -> " ++ basename out_copy,
       [cmd]⟩
    | .error _ =>
      let out_enc := streamEncPath outputDir base idx codec
      let cmd2 := streamEncCmd inputPath outputDir base overwrite preserveMetadata idx codec
      match env.engine cmd2 with
      | .ok _ =>
        ⟨some out_enc,
         "  ⚠️ Stream a:" ++ Nat.repr idx ++ " re-encoded -> " ++ basename out_enc,
         [cmd, cmd2]⟩
      | .error e =>
        ⟨none,
         "  ❌ Failed extracting stream a:" ++ Nat.repr idx ++ tailPart (_last_stderr_line e),
         [cmd, cmd2]⟩

/-- The planned task list of `extract_all_audio_streams_best_effort`
(lines 250-253): one `(index, codec)` per probed stream. -/
def streamTasks (streams : List AudioStream) : List (Nat × String) :=
  streams.enum.map (fun p => (p.1, codecOf p.2))

/-- Collect worker results in completion order: `order` is the sequence
of task indices in which the futures complete. -/
def collectResults (results : List WRes) (order : List Nat) : List WRes :=
  order.filterMap (fun i => results[i]?)

/-- Build the batch result from the collected worker results, exactly
as the `as_completed` loop does (lines 262-268): append every message,
append the path when present. -/
def aggregate (collected : List WRes) : BatchRes :=
  ⟨collected.filterMap (fun r => r.path), collected.map (fun r => r.msg),
   collected.flatMap (fun r => r.calls)⟩

/-- `extract_all_audio_streams_best_effort` (lines 199-270). -/
def extract_all_audio_streams_best_effort (streams : List AudioStream)
    (inputPath outputDir base : String) (overwrite preserveMetadata : Bool)
    (env : Env) (order : List Nat) : BatchRes :=
  if streams.isEmpty then ⟨[], ["  ❌ No audio streams found"], []⟩
  else
    match env.mkdir with
    | .error e => ⟨[], ["  ❌ Cannot create output directory: " ++ e], []⟩
    | .ok _ =>
      let results := (streamTasks streams).map
        (fun t => streamWorker inputPath outputDir base overwrite preserveMetadata t.1 t.2 env)
      aggregate (collectResults results order)

/-! ## split_channels_best_effort (lines 350-438) -/

/-- The single output path of a split worker (lines 369-370):
`{base}.a{s_idx}.ch{ch}.{ext}` with `ext` the codec's container for PCM
and `m4a` otherwise. -/
def splitOutPath (outputDir base : String) (s_idx ch : Nat) (codec : String) : String :=
  outputDir ++ "/" ++ base ++ ".a" ++ Nat.repr s_idx ++ ".ch" ++ Nat.repr ch ++ "."
    ++ (if codec ∈ pcm_codecs then codec_to_extension codec else "m4a")

/-- The generic `-map_channel 0.0.{ch}` copy command (lines 376-379). -/
def splitCopyCmd (inputPath outputDir base : String) (preserveMetadata : Bool)
    (s_idx ch : Nat) (codec : String) : List String :=
  ["ffmpeg", "-i", inputPath, "-map_channel", "0.0." ++ Nat.repr ch, "-c:a", "copy"]
    ++ (if preserveMetadata then ["-map_metadata", "0"] else [])
    ++ [splitOutPath outputDir base s_idx ch codec]

/-- The stream-qualified `-map_channel 0:a:{s_idx}.{ch}` fallback
command (lines 385-388). -/
def splitAltCmd (inputPath outputDir base : String) (preserveMetadata : Bool)
    (s_idx ch : Nat) (codec : String) : List String :=
  ["ffmpeg", "-i", inputPath, "-map_channel",
     "0:a:" ++ Nat.repr s_idx ++ "." ++ Nat.repr ch, "-c:a", "copy"]
    ++ (if preserveMetadata then ["-map_metadata", "0"] else [])
    ++ [splitOutPath outputDir base s_idx ch codec]

/-- The pan-filter re-encode command of the non-PCM branch
(lines 397-401). -/
def splitPanCmd (inputPath outputDir base : String) (preserveMetadata : Bool)
    (s_idx ch : Nat) (codec : String) : List String :=
  ["ffmpeg", "-i", inputPath, "-map", "0:a:" ++ Nat.repr s_idx, "-af",
     "pan=mono|c0=c" ++ Nat.repr ch, "-c:a", "aac", "-b:a", "160k"]
    ++ (if preserveMetadata then ["-map_metadata", "0"] else [])
    ++ [splitOutPath outputDir base s_idx ch codec]

/-- The per-channel worker of `split_channels_best_effort`
(lines 367-408).  PCM branch: generic copy, then stream-qualified copy,
then terminal failure — there is no re-encode step.  Non-PCM branch: one
pan-filter re-encode attempt. -/
def splitWorker (inputPath outputDir base : String) (overwrite preserveMetadata : Bool)
    (s_idx ch : Nat) (codec : String) (env : Env) : WRes :=
  let out_path := splitOutPath outputDir base s_idx ch codec
  if env.fs out_path && !overwrite then
    ⟨none, "  ⏭️ Skipped channel a:" ++ Nat.repr s_idx ++ ":" ++ Nat.repr ch ++ " (exists)", []⟩
  else if codec ∈ pcm_codecs then
    let cmd := splitCopyCmd inputPath outputDir base preserveMetadata s_idx ch codec
    match env.engine cmd with
    | .ok _ =>
      ⟨some out_path,
       "  ✅ Extracted channel a:" ++ Nat.repr s_idx ++ ":" ++ Nat.repr ch ++ " -> "
         ++ basename out_path,
       [cmd]⟩
    | .error _ =>
      let alt := splitAltCmd inputPath outputDir base preserveMetadata s_idx ch codec
      match env.engine alt with
      | .ok _ =>
        ⟨some out_path,
         "  ✅ Extracted channel a:" ++ Nat.repr s_idx ++ ":" ++ Nat.repr ch ++ " -> "
           ++ basename out_path,
         [cmd, alt]⟩
      | .error e =>
        ⟨none,
         "  ❌ Failed extracting channel a:" ++ Nat.repr s_idx ++ ":" ++ Nat.repr ch
           ++ " (PCM)" ++ tailPart (_last_stderr_line e),
         [cmd, alt]⟩
  else
    let cmd := splitPanCmd inputPath outputDir base preserveMetadata s_idx ch codec
    match env.engine cmd with
    | .ok _ =>
      ⟨some out_path,
       "  ⚠️ Channel a:" ++ Nat.repr s_idx ++ ":" ++ Nat.repr ch ++ " re-encoded -> "
         ++ basename out_path,
       [cmd]⟩
    | .error e =>
      ⟨none,
       "  ❌ Failed splitting channel a:" ++ Nat.repr s_idx ++ ":" ++ Nat.repr ch
         ++ tailPart (_last_stderr_line e),
       [cmd]⟩

/-- The planned task list of `split_channels_best_effort`
(lines 410-417): for each probed stream, skip it when
`channels <= 0`, otherwise one `(s_idx, ch, codec)` task per channel
index `ch ∈ range(channels)`. -/
def splitTasks (streams : List AudioStream) : List (Nat × Nat × String) :=
  streams.enum.flatMap (fun p =>
    if channelsOf p.2 ≤ 0 then []
    else (List.range (channelsOf p.2).toNat).map (fun ch => (p.1, ch, codecOf p.2)))

/-- `split_channels_best_effort` (lines 350-438). -/
def split_channels_best_effort (streams : List AudioStream)
    (inputPath outputDir base : String) (overwrite preserveMetadata : Bool)
    (env : Env) (order : List Nat) : BatchRes :=
  if streams.isEmpty then ⟨[], ["  ❌ No audio streams found"], []⟩
  else
    let tasks := splitTasks streams
    if tasks.isEmpty then ⟨[], ["  ❌ No channels to process"], []⟩
    else
      match env.mkdir with
      | .error e => ⟨[], ["  ❌ Cannot create output directory: " ++ e], []⟩
      | .ok _ =>
        let results := tasks.map
          (fun t => splitWorker inputPath outputDir base overwrite preserveMetadata
            t.1 t.2.1 t.2.2 env)
        aggregate (collectResults results order)

/-- Decimal value of a digit-character list, used to invert `Nat.repr`. -/
def digitsVal : List Char → Nat
  | [] => 0
  | c :: cs => (c.toNat - 48) * 10 ^ cs.length + digitsVal cs

/-- The diagnostic exactly as the specification words it, independent of
the code: the last line of the error output whose strip is non-empty,
stripped; the empty string when no such line is available.  Used only to
compare against `_last_stderr_line`. -/
def spec_last_nonempty_line (e : CalledProcessError) : String :=
  match e.stderr with
  | none => ""
  | some lines =>
    ((lines.filter (fun l => !(pyStrip l == ""))).getLast?.map pyStrip).getD ""

theorem digitChar_ne_dot (n : Nat) : Nat.digitChar n ≠ '.' := by
  by_cases h : n < 16
  · interval_cases n <;> decide
  · unfold Nat.digitChar
    repeat rw [if_neg (by omega)]
    decide

theorem toDigitsCore_ne_dot :
    ∀ (fuel n : Nat) (acc : List Char), (∀ c ∈ acc, c ≠ '.') →
      ∀ c ∈ Nat.toDigitsCore 10 fuel n acc, c ≠ '.' := by
  intro fuel
  induction fuel with
  | zero => intro n acc h c hc; exact h c hc
  | succ f ih =>
    intro n acc h c hc
    rw [Nat.toDigitsCore] at hc
    split at hc
    · rcases List.mem_cons.mp hc with h1 | h1
      · exact h1 ▸ digitChar_ne_dot (n % 10)
      · exact h c h1
    · refine ih (n / 10) (Nat.digitChar (n % 10) :: acc) ?_ c hc
      intro d hd
      rcases List.mem_cons.mp hd with h1 | h1
      · exact h1 ▸ digitChar_ne_dot (n % 10)
      · exact h d h1

theorem repr_ne_dot (n : Nat) : ∀ c ∈ (Nat.repr n).data, c ≠ '.' := by
  intro c hc
  exact toDigitsCore_ne_dot (n + 1) n [] (by intro d hd; cases hd) c hc

theorem digitChar_toNat_sub (m : Nat) (h : m < 10) : (Nat.digitChar m).toNat - 48 = m := by
  interval_cases m <;> rfl

theorem toDigitsCore_val :
    ∀ (fuel n : Nat) (acc : List Char), n < fuel →
      digitsVal (Nat.toDigitsCore 10 fuel n acc) = n * 10 ^ acc.length + digitsVal acc := by
  intro fuel
  induction fuel with
  | zero => intro n acc h; omega
  | succ f ih =>
    intro n acc h
    rw [Nat.toDigitsCore]
    split
    · next hz =>
      have hn : n < 10 := (Nat.div_eq_zero_iff (by omega)).mp hz
      simp only [digitsVal, digitChar_toNat_sub (n % 10) (Nat.mod_lt _ (by omega))]
      rw [Nat.mod_eq_of_lt hn]
    · next hz =>
      have h10 : 10 ≤ n := by
        by_contra hlt
        exact hz ((Nat.div_eq_zero_iff (by omega)).mpr (by omega))
      have hlt : n / 10 < f := by
        have := Nat.div_lt_self (show 0 < n by omega) (show 1 < 10 by omega)
        omega
      rw [ih (n / 10) (Nat.digitChar (n % 10) :: acc) hlt]
      simp only [digitsVal, List.length_cons,
        digitChar_toNat_sub (n % 10) (Nat.mod_lt _ (by omega))]
      conv_rhs => rw [← Nat.div_add_mod n 10]
      ring

theorem repr_injective : Function.Injective Nat.repr := by
  intro m n h
  have hde : Nat.toDigitsCore 10 (m + 1) m [] = Nat.toDigitsCore 10 (n + 1) n [] :=
    congrArg String.data h
  have hm := toDigitsCore_val (m + 1) m [] (by omega)
  have hn := toDigitsCore_val (n + 1) n [] (by omega)
  rw [hde, hn] at hm
  simp [digitsVal] at hm
  omega

theorem dotfree_append_inj :
    ∀ (a b t u : List Char), (∀ c ∈ a, c ≠ '.') → (∀ c ∈ b, c ≠ '.') →
      a ++ '.' :: t = b ++ '.' :: u → a = b ∧ t = u := by
  intro a
  induction a with
  | nil =>
    intro b t u _ hb h
    cases b with
    | nil => simpa using h
    | cons c bs =>
      simp only [List.nil_append, List.cons_append, List.cons.injEq] at h
      exact absurd h.1.symm (hb c (List.mem_cons_self c bs))
  | cons c as ih =>
    intro b t u ha hb h
    cases b with
    | nil =>
      simp only [List.nil_append, List.cons_append, List.cons.injEq] at h
      exact absurd h.1 (ha c (List.mem_cons_self c as))
    | cons d bs =>
      simp only [List.cons_append, List.cons.injEq] at h
      obtain ⟨rfl, h2⟩ := h
      obtain ⟨h3, h4⟩ := ih bs t u (fun x hx => ha x (List.mem_cons_of_mem _ hx))
        (fun x hx => hb x (List.mem_cons_of_mem _ hx)) h2
      exact ⟨by rw [h3], h4⟩

theorem append_repr_dot_inj (pre : String) (i j : Nat) (e f : String)
    (h : pre ++ Nat.repr i ++ "." ++ e = pre ++ Nat.repr j ++ "." ++ f) :
    i = j ∧ e = f := by
  have hdot : ("." : String).data = ['.'] := rfl
  have hd := congrArg String.data h
  simp only [String.data_append, hdot, List.append_assoc, List.singleton_append] at hd
  obtain ⟨h3, h4⟩ :=
    dotfree_append_inj _ _ _ _ (repr_ne_dot i) (repr_ne_dot j) (List.append_cancel_left hd)
  exact ⟨repr_injective (String.ext h3), String.ext h4⟩

theorem append_repr_ch_dot_inj (pre : String) (s t c d : Nat) (e f : String)
    (h : pre ++ Nat.repr s ++ ".ch" ++ Nat.repr c ++ "." ++ e
       = pre ++ Nat.repr t ++ ".ch" ++ Nat.repr d ++ "." ++ f) :
    s = t ∧ c = d ∧ e = f := by
  have hch : (".ch" : String).data = ['.', 'c', 'h'] := rfl
  have hdot : ("." : String).data = ['.'] := rfl
  have hd := congrArg String.data h
  simp only [String.data_append, hch, hdot, List.append_assoc, List.singleton_append,
    List.cons_append, List.nil_append] at hd
  obtain ⟨h3, h4⟩ :=
    dotfree_append_inj _ _ _ _ (repr_ne_dot s) (repr_ne_dot t) (List.append_cancel_left hd)
  simp only [List.cons.injEq, true_and] at h4
  obtain ⟨h5, h6⟩ :=
    dotfree_append_inj _ _ _ _ (repr_ne_dot c) (repr_ne_dot d) h4
  exact ⟨repr_injective (String.ext h3), repr_injective (String.ext h5), String.ext h6⟩

theorem head?_filter_eq_find? (p : α → Bool) (l : List α) :
    (l.filter p).head? = l.find? p := by
  induction l with
  | nil => rfl
  | cons a t ih =>
    simp only [List.filter, List.find?]
    cases h : p a <;> simp [h, ih]

theorem find?_reverse_eq_getLast?_filter (p : α → Bool) (l : List α) :
    l.reverse.find? p = (l.filter p).getLast? := by
  rw [List.getLast?_eq_head?_reverse, ← List.filter_reverse, head?_filter_eq_find?]

theorem filterMap_range_getElem {α : Type} (l : List α) :
    (List.range l.length).filterMap (fun i => l[i]?) = l := by
  induction l with
  | nil => rfl
  | cons a t ih =>
    rw [List.length_cons, List.range_succ_eq_map, List.filterMap_cons, List.filterMap_map]
    simp only [List.getElem?_cons_zero]
    congr 1
    have hc : ((fun i => (a :: t)[i]?) ∘ Nat.succ) = fun i => t[i]? := by
      funext i
      simp
    rw [hc, ih]

theorem collectResults_perm (results : List WRes) (order : List Nat)
    (h : order.Perm (List.range results.length)) :
    (collectResults results order).Perm results := by
  have hp := h.filterMap (fun i => results[i]?)
  rwa [filterMap_range_getElem] at hp

theorem mem_splitTasks {streams : List AudioStream} {i ch : Nat} {c : String} :
    (i, ch, c) ∈ splitTasks streams ↔
      ∃ s, streams[i]? = some s ∧ 0 < channelsOf s ∧
        ch < (channelsOf s).toNat ∧ c = codecOf s := by
  unfold splitTasks
  rw [List.mem_flatMap]
  constructor
  · rintro ⟨⟨j, s⟩, hp, ht⟩
    dsimp only at ht
    by_cases hc : channelsOf s ≤ 0
    · rw [if_pos hc] at ht
      cases ht
    · rw [if_neg hc] at ht
      rw [List.mem_map] at ht
      obtain ⟨ch2, hch, heq⟩ := ht
      injection heq with h1 h2
      injection h2 with h2 h3
      subst h1
      subst h2
      subst h3
      exact ⟨s, List.mem_enum_iff_getElem?.mp hp, by omega, List.mem_range.mp hch, rfl⟩
  · rintro ⟨s, hs, hpos, hlt, rfl⟩
    refine ⟨(i, s), List.mem_enum_iff_getElem?.mpr hs, ?_⟩
    show (i, ch, codecOf s) ∈
      if channelsOf s ≤ 0 then []
      else (List.range (channelsOf s).toNat).map (fun ch => (i, ch, codecOf s))
    rw [if_neg (by omega)]
    rw [List.mem_map]
    exact ⟨ch, List.mem_range.mpr hlt, rfl⟩

theorem extract_all_run (streams : List AudioStream) (inp outd base : String)
    (ow pm : Bool) (env : Env) (order : List Nat)
    (hne : streams ≠ []) (hmk : env.mkdir = .ok ()) :
    extract_all_audio_streams_best_effort streams inp outd base ow pm env order
      = aggregate (collectResults ((streamTasks streams).map
          (fun t => streamWorker inp outd base ow pm t.1 t.2 env)) order) := by
  unfold extract_all_audio_streams_best_effort
  rw [if_neg (by simpa [List.isEmpty_iff] using hne), hmk]

theorem split_run (streams : List AudioStream) (inp outd base : String)
    (ow pm : Bool) (env : Env) (order : List Nat)
    (hne : streams ≠ []) (htasks : splitTasks streams ≠ []) (hmk : env.mkdir = .ok ()) :
    split_channels_best_effort streams inp outd base ow pm env order
      = aggregate (collectResults ((splitTasks streams).map
          (fun t => splitWorker inp outd base ow pm t.1 t.2.1 t.2.2 env)) order) := by
  unfold split_channels_best_effort
  rw [if_neg (by simpa [List.isEmpty_iff] using hne),
      if_neg (by simpa [List.isEmpty_iff] using htasks), hmk]

theorem extract_msgs_perm (streams : List AudioStream) (inp outd base : String)
    (ow pm : Bool) (env : Env) (order : List Nat)
    (hne : streams ≠ []) (hmk : env.mkdir = .ok ())
    (hord : order.Perm (List.range (streamTasks streams).length)) :
    (extract_all_audio_streams_best_effort streams inp outd base ow pm env order).msgs.Perm
      ((streamTasks streams).map
        (fun t => (streamWorker inp outd base ow pm t.1 t.2 env).msg)) := by
  rw [extract_all_run streams inp outd base ow pm env order hne hmk]
  have hperm := collectResults_perm
    ((streamTasks streams).map (fun t => streamWorker inp outd base ow pm t.1 t.2 env)) order
    (by rwa [List.length_map])
  have hmap := hperm.map (fun r => r.msg)
  rwa [List.map_map] at hmap

theorem split_msgs_perm (streams : List AudioStream) (inp outd base : String)
    (ow pm : Bool) (env : Env) (order : List Nat)
    (hne : streams ≠ []) (htasks : splitTasks streams ≠ []) (hmk : env.mkdir = .ok ())
    (hord : order.Perm (List.range (splitTasks streams).length)) :
    (split_channels_best_effort streams inp outd base ow pm env order).msgs.Perm
      ((splitTasks streams).map
        (fun t => (splitWorker inp outd base ow pm t.1 t.2.1 t.2.2 env).msg)) := by
  rw [split_run streams inp outd base ow pm env order hne htasks hmk]
  have hperm := collectResults_perm
    ((splitTasks streams).map (fun t => splitWorker inp outd base ow pm t.1 t.2.1 t.2.2 env))
    order (by rwa [List.length_map])
  have hmap := hperm.map (fun r => r.msg)
  rwa [List.map_map] at hmap

/-- Claim C2: for every planned task list and every run of the
scheduler, each planned task yields exactly one outcome — the collected
message list has exactly one entry per planned task (one per probed
stream), and as a multiset it equals the independently computed
per-task worker results, so no task is dropped and no task's failure
alters another task's result. -/
theorem claim2_task_completeness (streams : List AudioStream) (inp outd base : String)
    (ow pm : Bool) (env : Env) (order : List Nat)
    (hne : streams ≠ []) (hmk : env.mkdir = .ok ())
    (hord : order.Perm (List.range (streamTasks streams).length)) :
    (extract_all_audio_streams_best_effort streams inp outd base ow pm env order).msgs.length
        = (streamTasks streams).length
      ∧ (streamTasks streams).length = streams.length
      ∧ (extract_all_audio_streams_best_effort streams inp outd base ow pm env order).msgs.Perm
          ((streamTasks streams).map
            (fun t => (streamWorker inp outd base ow pm t.1 t.2 env).msg)) := by
  have hperm := extract_msgs_perm streams inp outd base ow pm env order hne hmk hord
  refine ⟨?_, ?_, hperm⟩
  · rw [hperm.length_eq, List.length_map]
  · unfold streamTasks
    rw [List.length_map, List.enum_length]

/-- Claim C2 witness: a concrete one-stream batch. -/
theorem claim2_witness :
    ([(⟨some "aac", some 2⟩ : AudioStream)] ≠ []
        ∧ (Env.mk (fun _ => false) (fun _ => .ok ()) (.ok ())).mkdir = .ok ()
        ∧ ([0] : List Nat).Perm (List.range (streamTasks [⟨some "aac", some 2⟩]).length))
      ∧ ((extract_all_audio_streams_best_effort [⟨some "aac", some 2⟩] "in.mkv" "o" "b"
            false true ⟨fun _ => false, fun _ => .ok (), .ok ()⟩ [0]).msgs.length
          = (streamTasks [⟨some "aac", some 2⟩]).length
        ∧ (streamTasks [⟨some "aac", some 2⟩]).length = [(⟨some "aac", some 2⟩ : AudioStream)].length
        ∧ (extract_all_audio_streams_best_effort [⟨some "aac", some 2⟩] "in.mkv" "o" "b"
            false true ⟨fun _ => false, fun _ => .ok (), .ok ()⟩ [0]).msgs.Perm
            ((streamTasks [⟨some "aac", some 2⟩]).map
              (fun t => (streamWorker "in.mkv" "o" "b" false true t.1 t.2
                ⟨fun _ => false, fun _ => .ok (), .ok ()⟩).msg))) :=
  ⟨⟨by decide, rfl, by decide⟩,
   claim2_task_completeness [⟨some "aac", some 2⟩] "in.mkv" "o" "b" false true
     ⟨fun _ => false, fun _ => .ok (), .ok ()⟩ [0] (by decide) rfl (by decide)⟩

/-- Claim C6 counterexample: two-task batches of both entry points,
each run with reversed completion order.  In both, the message list
comes out in completion order (the track-1 task first), not re-sorted
into the planner's ascending (trackIndex, channelIndex) order,
falsifying the claimed re-sort for each batch function. -/
theorem claim6_counterexample :
    ((([1, 0] : List Nat)).Perm
        (List.range (streamTasks [⟨some "aac", some 2⟩, ⟨some "flac", some 2⟩]).length)
      ∧ (extract_all_audio_streams_best_effort [⟨some "aac", some 2⟩, ⟨some "flac", some 2⟩]
            "in.mkv" "o" "b" false true ⟨fun _ => false, fun _ => .ok (), .ok ()⟩ [1, 0]).msgs
          = [(streamWorker "in.mkv" "o" "b" false true 1 "flac"
                ⟨fun _ => false, fun _ => .ok (), .ok ()⟩).msg,
             (streamWorker "in.mkv" "o" "b" false true 0 "aac"
                ⟨fun _ => false, fun _ => .ok (), .ok ()⟩).msg]
      ∧ (extract_all_audio_streams_best_effort [⟨some "aac", some 2⟩, ⟨some "flac", some 2⟩]
            "in.mkv" "o" "b" false true ⟨fun _ => false, fun _ => .ok (), .ok ()⟩ [1, 0]).msgs
          ≠ [(streamWorker "in.mkv" "o" "b" false true 0 "aac"
                ⟨fun _ => false, fun _ => .ok (), .ok ()⟩).msg,
             (streamWorker "in.mkv" "o" "b" false true 1 "flac"
                ⟨fun _ => false, fun _ => .ok (), .ok ()⟩).msg])
      ∧ ((([1, 0] : List Nat)).Perm
          (List.range (splitTasks [⟨some "aac", some 1⟩, ⟨some "flac", some 1⟩]).length)
        ∧ (split_channels_best_effort [⟨some "aac", some 1⟩, ⟨some "flac", some 1⟩]
              "in.mkv" "o" "b" false true ⟨fun _ => false, fun _ => .ok (), .ok ()⟩ [1, 0]).msgs
            = [(splitWorker "in.mkv" "o" "b" false true 1 0 "flac"
                  ⟨fun _ => false, fun _ => .ok (), .ok ()⟩).msg,
               (splitWorker "in.mkv" "o" "b" false true 0 0 "aac"
                  ⟨fun _ => false, fun _ => .ok (), .ok ()⟩).msg]
        ∧ (split_channels_best_effort [⟨some "aac", some 1⟩, ⟨some "flac", some 1⟩]
              "in.mkv" "o" "b" false true ⟨fun _ => false, fun _ => .ok (), .ok ()⟩ [1, 0]).msgs
            ≠ [(splitWorker "in.mkv" "o" "b" false true 0 0 "aac"
                  ⟨fun _ => false, fun _ => .ok (), .ok ()⟩).msg,
               (splitWorker "in.mkv" "o" "b" false true 1 0 "flac"
                  ⟨fun _ => false, fun _ => .ok (), .ok ()⟩).msg]) := by
  decide

/-- Claim C6 (amended): for both batch entry points, the aggregated
message list is the per-task results in completion order — a
permutation of the planner-ordered per-task results, with no
re-sorting by task identity. -/
theorem claim6_completion_order :
    (∀ (streams : List AudioStream) (inp outd base : String) (ow pm : Bool) (env : Env)
        (order : List Nat), streams ≠ [] → env.mkdir = .ok () →
        order.Perm (List.range (streamTasks streams).length) →
        (extract_all_audio_streams_best_effort streams inp outd base ow pm env order).msgs
            = (collectResults ((streamTasks streams).map
                (fun t => streamWorker inp outd base ow pm t.1 t.2 env)) order).map
                (fun r => r.msg)
          ∧ (extract_all_audio_streams_best_effort streams inp outd base ow pm
                env order).msgs.Perm
              ((streamTasks streams).map
                (fun t => (streamWorker inp outd base ow pm t.1 t.2 env).msg)))
      ∧ (∀ (streams : List AudioStream) (inp outd base : String) (ow pm : Bool) (env : Env)
          (order : List Nat), streams ≠ [] → splitTasks streams ≠ [] → env.mkdir = .ok () →
          order.Perm (List.range (splitTasks streams).length) →
          (split_channels_best_effort streams inp outd base ow pm env order).msgs
              = (collectResults ((splitTasks streams).map
                  (fun t => splitWorker inp outd base ow pm t.1 t.2.1 t.2.2 env)) order).map
                  (fun r => r.msg)
            ∧ (split_channels_best_effort streams inp outd base ow pm env order).msgs.Perm
                ((splitTasks streams).map
                  (fun t => (splitWorker inp outd base ow pm t.1 t.2.1 t.2.2 env).msg))) := by
  constructor
  · intro streams inp outd base ow pm env order hne hmk hord
    constructor
    · rw [extract_all_run streams inp outd base ow pm env order hne hmk]
      rfl
    · exact extract_msgs_perm streams inp outd base ow pm env order hne hmk hord
  · intro streams inp outd base ow pm env order hne htasks hmk hord
    constructor
    · rw [split_run streams inp outd base ow pm env order hne htasks hmk]
      rfl
    · exact split_msgs_perm streams inp outd base ow pm env order hne htasks hmk hord

/-- Claim C6 witness: the amended statement at concrete two-task runs
of both batch functions. -/
theorem claim6_witness :
    ((extract_all_audio_streams_best_effort [⟨some "aac", some 2⟩, ⟨some "flac", some 2⟩]
          "in.mkv" "o" "b" false true ⟨fun _ => false, fun _ => .ok (), .ok ()⟩ [1, 0]).msgs
        = (collectResults ((streamTasks [⟨some "aac", some 2⟩, ⟨some "flac", some 2⟩]).map
            (fun t => streamWorker "in.mkv" "o" "b" false true t.1 t.2
              ⟨fun _ => false, fun _ => .ok (), .ok ()⟩)) [1, 0]).map (fun r => r.msg)
      ∧ (extract_all_audio_streams_best_effort [⟨some "aac", some 2⟩, ⟨some "flac", some 2⟩]
          "in.mkv" "o" "b" false true ⟨fun _ => false, fun _ => .ok (), .ok ()⟩ [1, 0]).msgs.Perm
          ((streamTasks [⟨some "aac", some 2⟩, ⟨some "flac", some 2⟩]).map
            (fun t => (streamWorker "in.mkv" "o" "b" false true t.1 t.2
              ⟨fun _ => false, fun _ => .ok (), .ok ()⟩).msg)))
      ∧ ((split_channels_best_effort [⟨some "aac", some 1⟩, ⟨some "flac", some 1⟩]
            "in.mkv" "o" "b" false true ⟨fun _ => false, fun _ => .ok (), .ok ()⟩ [1, 0]).msgs
          = (collectResults ((splitTasks [⟨some "aac", some 1⟩, ⟨some "flac", some 1⟩]).map
              (fun t => splitWorker "in.mkv" "o" "b" false true t.1 t.2.1 t.2.2
                ⟨fun _ => false, fun _ => .ok (), .ok ()⟩)) [1, 0]).map (fun r => r.msg)
        ∧ (split_channels_best_effort [⟨some "aac", some 1⟩, ⟨some "flac", some 1⟩]
            "in.mkv" "o" "b" false true ⟨fun _ => false, fun _ => .ok (), .ok ()⟩ [1, 0]).msgs.Perm
            ((splitTasks [⟨some "aac", some 1⟩, ⟨some "flac", some 1⟩]).map
              (fun t => (splitWorker "in.mkv" "o" "b" false true t.1 t.2.1 t.2.2
                ⟨fun _ => false, fun _ => .ok (), .ok ()⟩).msg))) :=
  ⟨claim6_completion_order.1 [⟨some "aac", some 2⟩, ⟨some "flac", some 2⟩] "in.mkv" "o" "b"
     false true ⟨fun _ => false, fun _ => .ok (), .ok ()⟩ [1, 0]
     (by decide) rfl (by decide),
   claim6_completion_order.2 [⟨some "aac", some 1⟩, ⟨some "flac", some 1⟩] "in.mkv" "o" "b"
     false true ⟨fun _ => false, fun _ => .ok (), .ok ()⟩ [1, 0]
     (by decide) (by decide) rfl (by decide)⟩

/-- Claim C10: a probed track whose channel count is missing, zero or
negative is silently omitted from per-channel planning: no task carries
its index, and the batch messages are exactly the per-task messages of
the planned tasks (so no skip or failure entry for the omitted track
ever appears). -/
theorem claim10_silent_omission (streams : List AudioStream) (i : Nat) (s : AudioStream)
    (hs : streams[i]? = some s) (hch : channelsOf s ≤ 0) :
    (∀ ch c, (i, ch, c) ∉ splitTasks streams)
      ∧ ∀ (inp outd base : String) (ow pm : Bool) (env : Env) (order : List Nat),
          splitTasks streams ≠ [] → env.mkdir = .ok () →
          order.Perm (List.range (splitTasks streams).length) →
          (split_channels_best_effort streams inp outd base ow pm env order).msgs.Perm
            ((splitTasks streams).map
              (fun t => (splitWorker inp outd base ow pm t.1 t.2.1 t.2.2 env).msg)) := by
  constructor
  · intro ch c hmem
    obtain ⟨s', hs', hpos, _, _⟩ := mem_splitTasks.mp hmem
    rw [hs] at hs'
    injection hs' with h
    subst h
    omega
  · intro inp outd base ow pm env order htasks hmk hord
    have hne : streams ≠ [] := by
      rintro rfl
      simp at hs
    exact split_msgs_perm streams inp outd base ow pm env order hne htasks hmk hord

/-- Claim C10 witness: a two-track container whose second track reports
zero channels — it is omitted, and the one-task batch reports only the
first track's channel. -/
theorem claim10_witness :
    (([⟨some "aac", some 1⟩, ⟨some "pcm_s16le", some 0⟩] :
          List AudioStream)[1]? = some ⟨some "pcm_s16le", some 0⟩
        ∧ channelsOf ⟨some "pcm_s16le", some 0⟩ ≤ 0)
      ∧ (∀ ch c, (1, ch, c) ∉ splitTasks [⟨some "aac", some 1⟩, ⟨some "pcm_s16le", some 0⟩])
      ∧ (split_channels_best_effort [⟨some "aac", some 1⟩, ⟨some "pcm_s16le", some 0⟩]
          "in.mkv" "o" "b" false true ⟨fun _ => false, fun _ => .ok (), .ok ()⟩ [0]).msgs.Perm
          ((splitTasks [⟨some "aac", some 1⟩, ⟨some "pcm_s16le", some 0⟩]).map
            (fun t => (splitWorker "in.mkv" "o" "b" false true t.1 t.2.1 t.2.2
              ⟨fun _ => false, fun _ => .ok (), .ok ()⟩).msg)) := by
  have h := claim10_silent_omission [⟨some "aac", some 1⟩, ⟨some "pcm_s16le", some 0⟩] 1
    ⟨some "pcm_s16le", some 0⟩ (by decide) (by decide)
  exact ⟨⟨by decide, by decide⟩, h.1,
    h.2 "in.mkv" "o" "b" false true ⟨fun _ => false, fun _ => .ok (), .ok ()⟩ [0]
      (by decide) rfl (by decide)⟩

/-- Claim C5 counterexample: a single-channel PCM track.  The planner
produces a degenerate one-channel split task (channelIndex 0, output
named with the `.ch0` split scheme), not a whole-track task — channel
tasks exist for `channelCount = 1`, not only for `channelCount > 1`. -/
theorem claim5_counterexample :
    channelsOf ⟨some "pcm_s16le", some 1⟩ = 1
      ∧ (0, 0, "pcm_s16le") ∈ splitTasks [⟨some "pcm_s16le", some 1⟩]
      ∧ splitTasks [⟨some "pcm_s16le", some 1⟩] = [(0, 0, "pcm_s16le")]
      ∧ (splitWorker "in.mkv" "o" "b" false true 0 0 "pcm_s16le"
            ⟨fun _ => false, fun _ => .ok (), .ok ()⟩).path
          = some (splitOutPath "o" "b" 0 0 "pcm_s16le")
      ∧ splitOutPath "o" "b" 0 0 "pcm_s16le" ≠ streamCopyPath "o" "b" 0 "pcm_s16le" := by
  decide

/-- Claim C5 (amended): per-channel planning creates one split task per
channel for every track with `channelCount ≥ 1` — including a degenerate
single split task with channelIndex 0 when `channelCount = 1` — and no
task at all for tracks with `channelCount ≤ 0`; no whole-track task is
ever substituted. -/
theorem claim5_planner_tasks (streams : List AudioStream) (i : Nat) (s : AudioStream)
    (hs : streams[i]? = some s) :
    (channelsOf s ≤ 0 → ∀ ch c, (i, ch, c) ∉ splitTasks streams)
      ∧ (0 < channelsOf s → ∀ ch c,
          ((i, ch, c) ∈ splitTasks streams ↔ c = codecOf s ∧ ch < (channelsOf s).toNat))
      ∧ (channelsOf s = 1 →
          (i, 0, codecOf s) ∈ splitTasks streams
            ∧ ∀ ch c, (i, ch, c) ∈ splitTasks streams → ch = 0) := by
  refine ⟨?_, ?_, ?_⟩
  · intro hle ch c hmem
    obtain ⟨s', hs', hpos, _, _⟩ := mem_splitTasks.mp hmem
    rw [hs] at hs'
    injection hs' with h
    subst h
    omega
  · intro hpos ch c
    constructor
    · intro hmem
      obtain ⟨s', hs', _, hlt, hc⟩ := mem_splitTasks.mp hmem
      rw [hs] at hs'
      injection hs' with h
      subst h
      exact ⟨hc, hlt⟩
    · rintro ⟨rfl, hlt⟩
      exact mem_splitTasks.mpr ⟨s, hs, hpos, hlt, rfl⟩
  · intro h1
    constructor
    · refine mem_splitTasks.mpr ⟨s, hs, by omega, ?_, rfl⟩
      rw [h1]
      decide
    · intro ch c hmem
      obtain ⟨s', hs', _, hlt, _⟩ := mem_splitTasks.mp hmem
      rw [hs] at hs'
      injection hs' with h
      subst h
      rw [h1] at hlt
      omega

/-- Claim C5 witness: the amended statement at a one-track mono PCM
container. -/
theorem claim5_witness :
    (([⟨some "pcm_s16le", some 1⟩] : List AudioStream)[0]? = some ⟨some "pcm_s16le", some 1⟩)
      ∧ (channelsOf ⟨some "pcm_s16le", some 1⟩ ≤ 0 →
          ∀ ch c, (0, ch, c) ∉ splitTasks [⟨some "pcm_s16le", some 1⟩])
      ∧ (0 < channelsOf ⟨some "pcm_s16le", some 1⟩ → ∀ ch c,
          ((0, ch, c) ∈ splitTasks [⟨some "pcm_s16le", some 1⟩]
            ↔ c = codecOf ⟨some "pcm_s16le", some 1⟩
              ∧ ch < (channelsOf ⟨some "pcm_s16le", some 1⟩).toNat))
      ∧ (channelsOf ⟨some "pcm_s16le", some 1⟩ = 1 →
          (0, 0, codecOf ⟨some "pcm_s16le", some 1⟩) ∈ splitTasks [⟨some "pcm_s16le", some 1⟩]
            ∧ ∀ ch c, (0, ch, c) ∈ splitTasks [⟨some "pcm_s16le", some 1⟩] → ch = 0) := by
  have h := claim5_planner_tasks [⟨some "pcm_s16le", some 1⟩] 0 ⟨some "pcm_s16le", some 1⟩
    (by decide)
  exact ⟨by decide, h.1, h.2.1, h.2.2⟩

/-- Claim C7: when the task's output path already exists and overwrite
is false, both task kinds immediately return the Skipped outcome with an
empty engine-invocation trace — the Transcode Engine is never invoked
for that task. -/
theorem claim7_existence_gate :
    (∀ (env : Env) (inp outd base : String) (pm : Bool) (i : Nat) (c : String),
        env.fs (streamCopyPath outd base i c) = true →
        streamWorker inp outd base false pm i c env
          = ⟨none, "  ⏭️ Skipped stream a:" ++ Nat.repr i ++ " (exists)", []⟩)
      ∧ (∀ (env : Env) (inp outd base : String) (pm : Bool) (s ch : Nat) (c : String),
          env.fs (splitOutPath outd base s ch c) = true →
          splitWorker inp outd base false pm s ch c env
            = ⟨none, "  ⏭️ Skipped channel a:" ++ Nat.repr s ++ ":" ++ Nat.repr ch
                ++ " (exists)", []⟩) := by
  constructor
  · intro env inp outd base pm i c h
    simp [streamWorker, h]
  · intro env inp outd base pm s ch c h
    simp [splitWorker, h]

/-- Claim C7 witness: a concrete environment in which the output file
already exists. -/
theorem claim7_witness :
    ((Env.mk (fun _ => true) (fun _ => .ok ()) (.ok ())).fs
          (streamCopyPath "o" "b" 0 "aac") = true
        ∧ streamWorker "in.mkv" "o" "b" false true 0 "aac"
            ⟨fun _ => true, fun _ => .ok (), .ok ()⟩
          = ⟨none, "  ⏭️ Skipped stream a:" ++ Nat.repr 0 ++ " (exists)", []⟩)
      ∧ ((Env.mk (fun _ => true) (fun _ => .ok ()) (.ok ())).fs
          (splitOutPath "o" "b" 0 1 "aac") = true
        ∧ splitWorker "in.mkv" "o" "b" false true 0 1 "aac"
            ⟨fun _ => true, fun _ => .ok (), .ok ()⟩
          = ⟨none, "  ⏭️ Skipped channel a:" ++ Nat.repr 0 ++ ":" ++ Nat.repr 1
              ++ " (exists)", []⟩) :=
  ⟨⟨rfl, claim7_existence_gate.1 ⟨fun _ => true, fun _ => .ok (), .ok ()⟩
      "in.mkv" "o" "b" true 0 "aac" rfl⟩,
   ⟨rfl, claim7_existence_gate.2 ⟨fun _ => true, fun _ => .ok (), .ok ()⟩
      "in.mkv" "o" "b" true 0 1 "aac" rfl⟩⟩

/-- Claim C8: if output-directory creation fails, the whole batch for
that container returns the single directory-level error message, with no
created files and no engine invocation — no task is attempted.  Holds
for both batch entry points. -/
theorem claim8_mkdir_failure :
    (∀ (streams : List AudioStream) (inp outd base : String) (ow pm : Bool) (env : Env)
        (order : List Nat) (err : String), streams ≠ [] → env.mkdir = .error err →
        extract_all_audio_streams_best_effort streams inp outd base ow pm env order
          = ⟨[], ["  ❌ Cannot create output directory: " ++ err], []⟩)
      ∧ (∀ (streams : List AudioStream) (inp outd base : String) (ow pm : Bool) (env : Env)
          (order : List Nat) (err : String), streams ≠ [] → splitTasks streams ≠ [] →
          env.mkdir = .error err →
          split_channels_best_effort streams inp outd base ow pm env order
            = ⟨[], ["  ❌ Cannot create output directory: " ++ err], []⟩) := by
  constructor
  · intro streams inp outd base ow pm env order err hne hmk
    unfold extract_all_audio_streams_best_effort
    rw [if_neg (by simpa [List.isEmpty_iff] using hne), hmk]
  · intro streams inp outd base ow pm env order err hne htasks hmk
    unfold split_channels_best_effort
    rw [if_neg (by simpa [List.isEmpty_iff] using hne),
        if_neg (by simpa [List.isEmpty_iff] using htasks), hmk]

/-- Claim C8 witness: a concrete failing `os.makedirs`. -/
theorem claim8_witness :
    ([(⟨some "aac", some 2⟩ : AudioStream)] ≠ []
        ∧ (Env.mk (fun _ => false) (fun _ => .ok ()) (.error "denied")).mkdir = .error "denied"
        ∧ extract_all_audio_streams_best_effort [⟨some "aac", some 2⟩] "in.mkv" "o" "b"
            false true ⟨fun _ => false, fun _ => .ok (), .error "denied"⟩ [0]
          = ⟨[], ["  ❌ Cannot create output directory: " ++ "denied"], []⟩)
      ∧ (splitTasks [(⟨some "aac", some 2⟩ : AudioStream)] ≠ []
        ∧ split_channels_best_effort [⟨some "aac", some 2⟩] "in.mkv" "o" "b"
            false true ⟨fun _ => false, fun _ => .ok (), .error "denied"⟩ [0, 1]
          = ⟨[], ["  ❌ Cannot create output directory: " ++ "denied"], []⟩) :=
  ⟨⟨by decide, rfl,
    claim8_mkdir_failure.1 [⟨some "aac", some 2⟩] "in.mkv" "o" "b" false true
      ⟨fun _ => false, fun _ => .ok (), .error "denied"⟩ [0] "denied" (by decide) rfl⟩,
   ⟨by decide,
    claim8_mkdir_failure.2 [⟨some "aac", some 2⟩] "in.mkv" "o" "b" false true
      ⟨fun _ => false, fun _ => .ok (), .error "denied"⟩ [0, 1] "denied" (by decide)
      (by decide) rfl⟩⟩

/-- Claim C1 counterexample: a per-channel task on a PCM track whose
generic and stream-qualified copy attempts are both rejected.  The
outcome is the terminal Failed message and the invocation trace holds
exactly the two copy-mode commands — execution never falls through to a
reencode attempt, so the copy failure alone is the task's final Failed
outcome. -/
theorem claim1_counterexample :
    splitWorker "in.mkv" "o" "b" false true 0 0 "pcm_s16le"
        ⟨fun _ => false, fun _ => .error ⟨some ["boom"]⟩, .ok ()⟩
      = ⟨none, "  ❌ Failed extracting channel a:0:0 (PCM) — boom",
         [splitCopyCmd "in.mkv" "o" "b" true 0 0 "pcm_s16le",
          splitAltCmd "in.mkv" "o" "b" true 0 0 "pcm_s16le"]⟩
      ∧ ((splitWorker "in.mkv" "o" "b" false true 0 0 "pcm_s16le"
            ⟨fun _ => false, fun _ => .error ⟨some ["boom"]⟩, .ok ()⟩).calls.all
          (fun cmd => cmd.contains "copy")) = true := by
  decide

/-- Claim C1 (amended): for a PCM per-channel task, a failed generic
copy triggers exactly one fallback — the stream-qualified copy form —
and if that also fails the task terminates as Failed with the engine's
diagnostic; the reencode path is never attempted for PCM per-channel
tasks. -/
theorem claim1_pcm_no_reencode (env : Env) (inp outd base : String) (ow pm : Bool)
    (s ch : Nat) (c : String) (e1 e2 : CalledProcessError)
    (hpcm : c ∈ pcm_codecs)
    (hfs : env.fs (splitOutPath outd base s ch c) = false)
    (h1 : env.engine (splitCopyCmd inp outd base pm s ch c) = .error e1)
    (h2 : env.engine (splitAltCmd inp outd base pm s ch c) = .error e2) :
    splitWorker inp outd base ow pm s ch c env
      = ⟨none, "  ❌ Failed extracting channel a:" ++ Nat.repr s ++ ":" ++ Nat.repr ch
          ++ " (PCM)" ++ tailPart (_last_stderr_line e2),
         [splitCopyCmd inp outd base pm s ch c, splitAltCmd inp outd base pm s ch c]⟩ := by
  simp [splitWorker, hfs, hpcm, h1, h2]

/-- Claim C1 witness: the amended statement at a concrete failing
environment. -/
theorem claim1_witness :
    ("pcm_s24le" ∈ pcm_codecs
        ∧ (Env.mk (fun _ => false) (fun _ => .error ⟨some ["boom"]⟩) (.ok ())).fs
            (splitOutPath "out" "clip" 1 0 "pcm_s24le") = false
        ∧ (Env.mk (fun _ => false) (fun _ => .error ⟨some ["boom"]⟩) (.ok ())).engine
            (splitCopyCmd "clip.mkv" "out" "clip" true 1 0 "pcm_s24le")
          = .error ⟨some ["boom"]⟩
        ∧ (Env.mk (fun _ => false) (fun _ => .error ⟨some ["boom"]⟩) (.ok ())).engine
            (splitAltCmd "clip.mkv" "out" "clip" true 1 0 "pcm_s24le")
          = .error ⟨some ["boom"]⟩)
      ∧ splitWorker "clip.mkv" "out" "clip" false true 1 0 "pcm_s24le"
          ⟨fun _ => false, fun _ => .error ⟨some ["boom"]⟩, .ok ()⟩
        = ⟨none, "  ❌ Failed extracting channel a:" ++ Nat.repr 1 ++ ":" ++ Nat.repr 0
            ++ " (PCM)" ++ tailPart (_last_stderr_line ⟨some ["boom"]⟩),
           [splitCopyCmd "clip.mkv" "out" "clip" true 1 0 "pcm_s24le",
            splitAltCmd "clip.mkv" "out" "clip" true 1 0 "pcm_s24le"]⟩ :=
  ⟨⟨by decide, rfl, rfl, rfl⟩,
   claim1_pcm_no_reencode ⟨fun _ => false, fun _ => .error ⟨some ["boom"]⟩, .ok ()⟩
     "clip.mkv" "out" "clip" false true 1 0 "pcm_s24le" ⟨some ["boom"]⟩ ⟨some ["boom"]⟩
     (by decide) rfl rfl rfl⟩

/-- Claim C9: the terminal-failure diagnostic.  The helper
`_last_stderr_line` computes exactly the specification's "last non-empty
line of the engine's error output, stripped; empty if unavailable" (it
is total, so computing the diagnostic never raises), and a stream task
whose copy and reencode attempts both fail ends as the Failed message
carrying that diagnostic, after exactly those two engine invocations. -/
theorem claim9_failure_diagnostic :
    (∀ e : CalledProcessError, _last_stderr_line e = spec_last_nonempty_line e)
      ∧ (∀ (env : Env) (inp outd base : String) (ow pm : Bool) (i : Nat) (c : String)
          (e1 e2 : CalledProcessError),
          env.fs (streamCopyPath outd base i c) = false →
          env.engine (streamCopyCmd inp outd base ow pm i c) = .error e1 →
          env.engine (streamEncCmd inp outd base ow pm i c) = .error e2 →
          streamWorker inp outd base ow pm i c env
            = ⟨none, "  ❌ Failed extracting stream a:" ++ Nat.repr i
                ++ tailPart (_last_stderr_line e2),
               [streamCopyCmd inp outd base ow pm i c, streamEncCmd inp outd base ow pm i c]⟩) := by
  constructor
  · intro e
    obtain ⟨st⟩ := e
    cases st with
    | none => rfl
    | some lines =>
      show (match lines.reverse.find? (fun l => !(pyStrip l == "")) with
            | some l => pyStrip l
            | none => "")
          = ((lines.filter (fun l => !(pyStrip l == ""))).getLast?.map pyStrip).getD ""
      rw [find?_reverse_eq_getLast?_filter]
      cases h : (lines.filter (fun l => !(pyStrip l == ""))).getLast? <;> simp [h]
  · intro env inp outd base ow pm i c e1 e2 hfs h1 h2
    simp [streamWorker, hfs, h1, h2]

/-- Claim C9 witness: a concrete double failure whose stderr has a blank
tail, and the all-blank case giving the empty diagnostic. -/
theorem claim9_witness :
    (_last_stderr_line ⟨some ["first", " tail line ", "", "  "]⟩
        = spec_last_nonempty_line ⟨some ["first", " tail line ", "", "  "]⟩
      ∧ _last_stderr_line ⟨some ["", "  "]⟩ = spec_last_nonempty_line ⟨some ["", "  "]⟩
      ∧ spec_last_nonempty_line ⟨some ["", "  "]⟩ = "")
      ∧ ((Env.mk (fun _ => false) (fun _ => .error ⟨some ["first", " tail line ", "", "  "]⟩)
            (.ok ())).fs (streamCopyPath "o" "b" 0 "vorbis") = false
        ∧ streamWorker "in.mkv" "o" "b" false true 0 "vorbis"
            ⟨fun _ => false, fun _ => .error ⟨some ["first", " tail line ", "", "  "]⟩, .ok ()⟩
          = ⟨none, "  ❌ Failed extracting stream a:" ++ Nat.repr 0
              ++ tailPart (_last_stderr_line ⟨some ["first", " tail line ", "", "  "]⟩),
             [streamCopyCmd "in.mkv" "o" "b" false true 0 "vorbis",
              streamEncCmd "in.mkv" "o" "b" false true 0 "vorbis"]⟩) :=
  ⟨⟨claim9_failure_diagnostic.1 ⟨some ["first", " tail line ", "", "  "]⟩,
    claim9_failure_diagnostic.1 ⟨some ["", "  "]⟩, by decide⟩,
   ⟨rfl,
    claim9_failure_diagnostic.2
      ⟨fun _ => false, fun _ => .error ⟨some ["first", " tail line ", "", "  "]⟩, .ok ()⟩
      "in.mkv" "o" "b" false true 0 "vorbis"
      ⟨some ["first", " tail line ", "", "  "]⟩ ⟨some ["first", " tail line ", "", "  "]⟩
      rfl rfl rfl⟩⟩

/-- Claim C3 counterexample: a `vorbis` stream task.  When the copy
attempt succeeds the task writes `{base}.a0.ogg`, but when copy fails
and the reencode fallback succeeds it writes `{base}.a0.m4a` — two
different successful output paths for the same task, so the written
path is not uniquely determined by the task. -/
theorem claim3_counterexample :
    (streamWorker "in.mkv" "o" "b" false true 0 "vorbis"
        ⟨fun _ => false, fun _ => .ok (), .ok ()⟩).path
      = some (streamCopyPath "o" "b" 0 "vorbis")
      ∧ (streamWorker "in.mkv" "o" "b" false true 0 "vorbis"
          ⟨fun _ => false,
            fun cmd => if cmd.contains "copy" then .error ⟨none⟩ else .ok (), .ok ()⟩).path
        = some (streamEncPath "o" "b" 0 "vorbis")
      ∧ streamCopyPath "o" "b" 0 "vorbis" ≠ streamEncPath "o" "b" 0 "vorbis" := by
  decide

/-- Claim C3 (amended): no two distinct tasks of one container ever
share an output path — for stream tasks even across their copy and
reencode candidate paths, and for split tasks on their single path —
and each task only ever writes one of its own task-determined candidate
paths (the stream task has two candidates, copy and reencode, which
coincide unless the codec's copy container differs from its reencode
container; the split task has exactly one). -/
theorem claim3_output_paths :
    (∀ (outd base : String) (i j : Nat) (ci cj : String), i ≠ j →
        ∀ p ∈ [streamCopyPath outd base i ci, streamEncPath outd base i ci],
        ∀ q ∈ [streamCopyPath outd base j cj, streamEncPath outd base j cj], p ≠ q)
      ∧ (∀ (outd base : String) (streams : List AudioStream) (t u : Nat × Nat × String),
          t ∈ splitTasks streams → u ∈ splitTasks streams → t ≠ u →
          splitOutPath outd base t.1 t.2.1 t.2.2 ≠ splitOutPath outd base u.1 u.2.1 u.2.2)
      ∧ (∀ (env : Env) (inp outd base : String) (ow pm : Bool) (i : Nat) (c : String),
          (streamWorker inp outd base ow pm i c env).path = none
            ∨ (streamWorker inp outd base ow pm i c env).path
                = some (streamCopyPath outd base i c)
            ∨ (streamWorker inp outd base ow pm i c env).path
                = some (streamEncPath outd base i c))
      ∧ (∀ (env : Env) (inp outd base : String) (ow pm : Bool) (s ch : Nat) (c : String),
          (splitWorker inp outd base ow pm s ch c env).path = none
            ∨ (splitWorker inp outd base ow pm s ch c env).path
                = some (splitOutPath outd base s ch c)) := by
  refine ⟨?_, ?_, ?_, ?_⟩
  · intro outd base i j ci cj hij p hp q hq
    simp only [List.mem_cons, List.not_mem_nil, or_false] at hp hq
    rcases hp with rfl | rfl <;> rcases hq with rfl | rfl <;>
      · intro h
        simp only [streamCopyPath, streamEncPath] at h
        exact hij (append_repr_dot_inj (outd ++ "/" ++ base ++ ".a") i j _ _ h).1
  · intro outd base streams t u ht hu hne
    obtain ⟨i, ch, c⟩ := t
    obtain ⟨j, ch2, c2⟩ := u
    intro h
    simp only [splitOutPath] at h
    obtain ⟨rfl, rfl, -⟩ :=
      append_repr_ch_dot_inj (outd ++ "/" ++ base ++ ".a") i j ch ch2 _ _ h
    obtain ⟨s1, hs1, -, -, hc1⟩ := mem_splitTasks.mp ht
    obtain ⟨s2, hs2, -, -, hc2⟩ := mem_splitTasks.mp hu
    rw [hs1] at hs2
    injection hs2 with hss
    subst hss
    exact hne (by rw [hc1, hc2])
  · intro env inp outd base ow pm i c
    simp only [streamWorker]
    split
    · exact Or.inl rfl
    · split
      · exact Or.inr (Or.inl rfl)
      · split
        · exact Or.inr (Or.inr rfl)
        · exact Or.inl rfl
  · intro env inp outd base ow pm s ch c
    simp only [splitWorker]
    split
    · exact Or.inl rfl
    · split
      · split
        · exact Or.inr rfl
        · split
          · exact Or.inr rfl
          · exact Or.inl rfl
      · split
        · exact Or.inr rfl
        · exact Or.inl rfl

/-- Claim C3 witness: the amended statement at concrete tasks. -/
theorem claim3_witness :
    ((0 : Nat) ≠ 1
        ∧ streamCopyPath "o" "b" 0 "aac" ≠ streamEncPath "o" "b" 1 "vorbis")
      ∧ ((0, 0, "pcm_s16le") ∈ splitTasks [⟨some "pcm_s16le", some 2⟩]
        ∧ (0, 1, "pcm_s16le") ∈ splitTasks [⟨some "pcm_s16le", some 2⟩]
        ∧ ((0, 0, "pcm_s16le") : Nat × Nat × String) ≠ (0, 1, "pcm_s16le")
        ∧ splitOutPath "o" "b" 0 0 "pcm_s16le" ≠ splitOutPath "o" "b" 0 1 "pcm_s16le")
      ∧ ((streamWorker "in.mkv" "o" "b" false true 0 "aac"
            ⟨fun _ => false, fun _ => .ok (), .ok ()⟩).path = none
          ∨ (streamWorker "in.mkv" "o" "b" false true 0 "aac"
              ⟨fun _ => false, fun _ => .ok (), .ok ()⟩).path
              = some (streamCopyPath "o" "b" 0 "aac")
          ∨ (streamWorker "in.mkv" "o" "b" false true 0 "aac"
              ⟨fun _ => false, fun _ => .ok (), .ok ()⟩).path
              = some (streamEncPath "o" "b" 0 "aac"))
      ∧ ((splitWorker "in.mkv" "o" "b" false true 0 0 "aac"
            ⟨fun _ => false, fun _ => .ok (), .ok ()⟩).path = none
          ∨ (splitWorker "in.mkv" "o" "b" false true 0 0 "aac"
              ⟨fun _ => false, fun _ => .ok (), .ok ()⟩).path
              = some (splitOutPath "o" "b" 0 0 "aac")) :=
  ⟨⟨by decide,
    claim3_output_paths.1 "o" "b" 0 1 "aac" "vorbis" (by decide)
      (streamCopyPath "o" "b" 0 "aac") (by simp)
      (streamEncPath "o" "b" 1 "vorbis") (by simp)⟩,
   ⟨by decide, by decide, by decide,
    claim3_output_paths.2.1 "o" "b" [⟨some "pcm_s16le", some 2⟩]
      (0, 0, "pcm_s16le") (0, 1, "pcm_s16le") (by decide) (by decide) (by decide)⟩,
   claim3_output_paths.2.2.1 ⟨fun _ => false, fun _ => .ok (), .ok ()⟩
     "in.mkv" "o" "b" false true 0 "aac",
   claim3_output_paths.2.2.2 ⟨fun _ => false, fun _ => .ok (), .ok ()⟩
     "in.mkv" "o" "b" false true 0 0 "aac"⟩

/-- Claim C4 counterexample: one `vorbis` stream whose copy attempt the
engine rejects.  The first run succeeds via reencode, writing
`b.a0.m4a`; the second run with `overwrite = false` over exactly the
files the first run created checks the copy path `b.a0.ogg`, does not
find it, and re-attempts (re-encoding again) instead of yielding the
claimed Skipped outcome. -/
theorem claim4_counterexample :
    (extract_all_audio_streams_best_effort [⟨some "vorbis", some 2⟩] "in.mkv" "o" "b"
        false true
        ⟨fun _ => false, fun cmd => if cmd.contains "copy" then .error ⟨none⟩ else .ok (),
          .ok ()⟩ [0]).msgs
      = ["  ⚠️ Stream a:0 re-encoded -> b.a0.m4a"]
      ∧ (extract_all_audio_streams_best_effort [⟨some "vorbis", some 2⟩] "in.mkv" "o" "b"
          false true
          ⟨fun p => (extract_all_audio_streams_best_effort [⟨some "vorbis", some 2⟩]
              "in.mkv" "o" "b" false true
              ⟨fun _ => false,
                fun cmd => if cmd.contains "copy" then .error ⟨none⟩ else .ok (), .ok ()⟩
              [0]).created.contains p,
            fun cmd => if cmd.contains "copy" then .error ⟨none⟩ else .ok (), .ok ()⟩
          [0]).msgs
        = ["  ⚠️ Stream a:0 re-encoded -> b.a0.m4a"]
      ∧ ("  ⚠️ Stream a:0 re-encoded -> b.a0.m4a" : String)
          ≠ "  ⏭️ Skipped stream a:0 (exists)" := by
  decide

/-- Claim C4 (amended): rerunning with `overwrite = false` yields the
Skipped outcome for every task that wrote its copy-named path on the
first run — all copy successes, and the reencode successes whose
fallback container equals the copy container.  (A reencode success
under a codec whose fallback container differs, e.g. `vorbis`, is
re-attempted, not skipped — see the counterexample.) -/
theorem claim4_idempotent_skip (streams : List AudioStream) (inp outd base : String)
    (pm : Bool) (env : Env) (order : List Nat)
    (eng2 : List String → Except CalledProcessError Unit) (mk2 : Except String Unit)
    (i : Nat) (c : String)
    (hmk : env.mkdir = .ok ())
    (hord : order.Perm (List.range (streamTasks streams).length))
    (hmem : (i, c) ∈ streamTasks streams)
    (hwrote : (streamWorker inp outd base false pm i c env).path
        = some (streamCopyPath outd base i c)) :
    streamWorker inp outd base false pm i c
      (Env.mk
        (fun p => env.fs p
          || (extract_all_audio_streams_best_effort streams inp outd base false pm
              env order).created.contains p)
        eng2 mk2)
      = ⟨none, "  ⏭️ Skipped stream a:" ++ Nat.repr i ++ " (exists)", []⟩ := by
  have hne : streams ≠ [] := by
    rintro rfl
    simp [streamTasks] at hmem
  have hperm := collectResults_perm
    ((streamTasks streams).map (fun t => streamWorker inp outd base false pm t.1 t.2 env))
    order (by rwa [List.length_map])
  have hrmem : streamWorker inp outd base false pm i c env
      ∈ collectResults ((streamTasks streams).map
          (fun t => streamWorker inp outd base false pm t.1 t.2 env)) order :=
    hperm.mem_iff.mpr (List.mem_map.mpr ⟨(i, c), hmem, rfl⟩)
  have hcont : streamCopyPath outd base i c
      ∈ (extract_all_audio_streams_best_effort streams inp outd base false pm
          env order).created := by
    rw [extract_all_run streams inp outd base false pm env order hne hmk]
    exact List.mem_filterMap.mpr ⟨_, hrmem, hwrote⟩
  simp [streamWorker, hcont]

/-- Claim C4 witness: an `aac` stream whose first run succeeds via copy;
the second run skips it. -/
theorem claim4_witness :
    ((Env.mk (fun _ => false) (fun _ => .ok ()) (.ok ())).mkdir = .ok ()
        ∧ ([0] : List Nat).Perm (List.range (streamTasks [⟨some "aac", some 2⟩]).length)
        ∧ (0, "aac") ∈ streamTasks [⟨some "aac", some 2⟩]
        ∧ (streamWorker "in.mkv" "o" "b" false true 0 "aac"
            ⟨fun _ => false, fun _ => .ok (), .ok ()⟩).path
          = some (streamCopyPath "o" "b" 0 "aac"))
      ∧ streamWorker "in.mkv" "o" "b" false true 0 "aac"
          (Env.mk
            (fun p => (Env.mk (fun _ => false) (fun _ => .ok ()) (.ok ())).fs p
              || (extract_all_audio_streams_best_effort [⟨some "aac", some 2⟩] "in.mkv" "o" "b"
                  false true ⟨fun _ => false, fun _ => .ok (), .ok ()⟩ [0]).created.contains p)
            (fun _ => .ok ()) (.ok ()))
        = ⟨none, "  ⏭️ Skipped stream a:" ++ Nat.repr 0 ++ " (exists)", []⟩ :=
  ⟨⟨rfl, by decide, by decide, by decide⟩,
   claim4_idempotent_skip [⟨some "aac", some 2⟩] "in.mkv" "o" "b" true
     ⟨fun _ => false, fun _ => .ok (), .ok ()⟩ [0] (fun _ => .ok ()) (.ok ()) 0 "aac"
     rfl (by decide) (by decide) (by decide)⟩
